import Mathlib

/-!
Verification of the CGRAOmp analysis/verification pipeline spec against its C++
sources, via a shallow embedding in Lean.  Each definition carries a reference
to the source file and line range it embeds.  Machine integers are modelled as
Nat/Int with explicit 2^w reductions where the source performs a narrowing or
reinterpreting conversion.
-/

namespace CGRAOmp

/-- C truncating conversion of an unsigned 64-bit quantity to a signed 32-bit
`int` (two's complement), as performed by x86/ARM implementations when the
source assigns a `uint64_t` expression to an `int`. -/
def toInt32 (n : Nat) : Int :=
  if n % 2 ^ 32 < 2 ^ 31 then ((n % 2 ^ 32 : Nat) : Int)
  else ((n % 2 ^ 32 : Nat) : Int) - 2 ^ 32

/-- First 64-bit limb returned by `APInt::getRawData()` for a small integer
value: the value in two's complement reduced modulo 2^64. -/
def rawLimb (v : Int) : Nat := (v % 2 ^ 64).toNat

/-! ## Types and data-node attribute strings
Embeds `Utils::getDataWidth` (src/src/Passes/CGRAOmpComponents/Utils.cpp 137-156),
`DataNode::getTypeName` (src/include/CGRADataFlowGraph.hpp 269-290),
`ConstantNode::getConstStr` and `GlobalDataNode::getDataStr`
(src/src/Passes/CGRAOmpComponents/CGRADataFlowGraph.cpp 51-93). -/

/-- Floating-point type kinds of the IR (`Type::TypeID` floating cases). -/
inductive FPType
  | half
  | bfloat
  | flt
  | dbl
  | x86fp80
  | fp128
  | ppcfp128
  deriving DecidableEq, Repr

/-- IR types relevant to data-node attribute emission. -/
inductive LLVMType
  | integer (width : Nat)
  | floating (k : FPType)
  | pointer (elem : LLVMType)
  | array (elem : LLVMType) (num : Nat)
  | otherTy
  deriving DecidableEq, Repr

/-- `Utils::getDataWidth` (Utils.cpp 137-156): bit width per type id; the
default case (half, x86_fp80, ppc_fp128, pointers, arrays, others) yields 0. -/
def getDataWidth : LLVMType → Nat
  | .floating .bfloat => 16
  | .floating .flt => 32
  | .floating .dbl => 64
  | .floating .fp128 => 128
  | .integer w => w
  | _ => 0

/-- `DataNode::getTypeName` (CGRADataFlowGraph.hpp 269-290).  A pointer type is
unwrapped and the result wrapped in quotes as an address type; one array layer
is unwrapped.  The source then emits the string "float" followed by the width
for an integer element type and "int" followed by the width for a
floating-point element type (hpp lines 281-285). -/
def getTypeName (ty : LLVMType) : String :=
  let pr : LLVMType × Bool :=
    match ty with
    | .pointer e => (e, true)
    | t => (t, false)
  let eleTy : LLVMType :=
    match pr.1 with
    | .array e _ => e
    | t => t
  let typeStr : String :=
    match eleTy with
    | .integer _ => "float" ++ toString (getDataWidth eleTy)
    | .floating _ => "int" ++ toString (getDataWidth eleTy)
    | _ => "unknown"
  if pr.2 then "\"address<" ++ typeStr ++ ">\"" else typeStr

/-- Source value feeding a `Constant` or `GlobalData` node. -/
inductive CValue
  | constInt (ty : LLVMType) (v : Int)
  | namedVal (ty : LLVMType) (name : String)
  deriving DecidableEq, Repr

/-- Type of a `CValue`. -/
def CValue.typeOf : CValue → LLVMType
  | .constInt ty _ => ty
  | .namedVal ty _ => ty

/-- Name-or-operand rendering of a `CValue` (`Value::getNameOrAsOperand`),
restricted to named values; integer constants take the other branch. -/
def CValue.nameStr : CValue → String
  | .constInt _ v => toString v
  | .namedVal _ n => n

/-- A `Constant`/`GlobalData` DFG node: its value and the optional skip
sequence of transparently skipped cast instructions. -/
structure DataNodeV where
  val : CValue
  skipSeq : List CValue
  deriving DecidableEq, Repr

/-- Data source of the node (CGRADataFlowGraph.cpp 54, 85): the back of the
skip sequence when one exists, otherwise the node's value. -/
def DataNodeV.dataSrc (n : DataNodeV) : CValue :=
  match n.skipSeq.getLast? with
  | some v => v
  | none => n.val

/-- `ConstantNode::getConstStr` (CGRADataFlowGraph.cpp 51-76) restricted to
integer constants and named sources (floating-point constants only differ in
the numeral formatting of the value field). -/
def getConstStr (n : DataNodeV) : String :=
  let typeStr := getTypeName (n.dataSrc).typeOf
  match n.dataSrc with
  | .constInt _ v => "datatype=" ++ typeStr ++ ",value=" ++ toString v
  | .namedVal _ nm => "datatype=" ++ typeStr ++ ",value=" ++ nm

/-- `GlobalDataNode::getDataStr` (CGRADataFlowGraph.cpp 83-88). -/
def getDataStr (n : DataNodeV) : String :=
  let typeStr := getTypeName (n.dataSrc).typeOf
  "datatype=\"" ++ typeStr ++ "\",value=\"" ++ (n.dataSrc).nameStr ++ "\""

/-! ## Instruction map: conditions, entries, find
Embeds `MapCondition` (src/src/Passes/CGRAModel/CGRAInstMap.cpp 48-201 and
src/include/CGRAInstMap.hpp 106-218), the map entries (CGRAInstMap.cpp
331-402) and `InstMap` (CGRAInstMap.cpp 205-321). -/

/-- Operand of an IR instruction as seen by the mapping conditions: an integer
constant, a floating-point constant (modelled over the rationals), or any
other value. -/
inductive Operand
  | constantInt (v : Int)
  | constantFP (v : Rat)
  | value (id : Nat)
  deriving DecidableEq, Repr

/-- Opcode classification of an instruction as used by the map entries.
Compare predicates are the numeric values of `CmpInst::Predicate`. -/
inductive InstOp
  | binary (op : String)
  | icmpOp (pred : Nat)
  | fcmpOp (pred : Nat)
  | loadOp
  | storeOp
  | callOp (callee : String)
  | otherOp
  deriving DecidableEq, Repr

/-- An IR instruction for mapping purposes: opcode class, operand list, and
the set of fast-math/overflow/exact flags present on it (the per-flag getters
of `MapCondition::FlagGetter` reduce to flag membership). -/
structure Instruction where
  op : InstOp
  operands : List Operand
  flags : List String
  deriving DecidableEq, Repr

/-- `DBL_EPSILON` of IEEE-754 binary64, exactly 2^-52. -/
def dblEpsilon : Rat := 1 / 2 ^ 52

/-- `MapCondition::equal_double` (CGRAInstMap.hpp 206-209). -/
def equalDouble (a b : Rat) : Bool :=
  decide (|a - b| ≤ dblEpsilon * max 1 (max |a| |b|))

/-- `MapCondition` state (CGRAInstMap.hpp 181-196).  The `match_use` closure is
recovered from `isUseInt`, `useInt`/`useDouble` and `constOperand`. -/
structure MapCondition where
  mapName : String
  flagList : List String
  anyLHS : Bool
  anyRHS : Bool
  anyPred : Bool
  cmpPred : Nat
  isUseInt : Bool
  useInt : Int
  useDouble : Rat
  constOperand : Nat
  deriving DecidableEq, Repr

/-- `MapCondition::MapCondition(map)` (CGRAInstMap.hpp 113-115): all
sub-clauses unset. -/
def mkMapCondition (mapName : String) : MapCondition :=
  { mapName := mapName
    flagList := []
    anyLHS := true
    anyRHS := true
    anyPred := true
    cmpPred := 0
    isUseInt := false
    useInt := 0
    useDouble := 0
    constOperand := 0 }

/-- The `match_use` closure installed by `MapCondition::setConst`
(CGRAInstMap.cpp 174-182 for the integer form, 191-200 for the double form):
test whether operand `constOperand` exists and is a constant of the installed
kind equal to the stored value. -/
def MapCondition.matchUse (c : MapCondition) (I : Instruction) : Bool :=
  if h : c.constOperand < I.operands.length then
    match I.operands.get ⟨c.constOperand, h⟩, c.isUseInt with
    | .constantInt v, true => c.useInt == v
    | .constantFP v, false => equalDouble c.useDouble v
    | _, _ => false
  else false

/-- `MapCondition::match` (CGRAInstMap.cpp 48-73): required flags, then the
constant-operand clause (once per unset side), then the compare predicate. -/
def MapCondition.matchInst (c : MapCondition) (I : Instruction) : Bool :=
  (c.flagList.all fun f => I.flags.contains f) &&
  (c.anyLHS || c.matchUse I) &&
  (c.anyRHS || c.matchUse I) &&
  (c.anyPred ||
    match I.op with
    | .icmpOp p => p == c.cmpPred
    | .fcmpOp p => p == c.cmpPred
    | _ => false)

/-- `MapCondition::setConst(int use, bool isLeft)` (CGRAInstMap.cpp 167-183).
Source line 169 reads `const_operand = 0 ? isLeft : 1`; the condition is the
literal 0, so the stored operand index is always 1 whatever `isLeft` is. -/
def MapCondition.setConstInt (c : MapCondition) (use : Int) (isLeft : Bool) :
    MapCondition :=
  { c with
    constOperand := 1
    useInt := use
    anyLHS := if isLeft then false else c.anyLHS
    anyRHS := if isLeft then c.anyRHS else false
    isUseInt := true }

/-- `MapCondition::setConst(double use, bool isLeft)` (CGRAInstMap.cpp
185-201); line 188 has the same `0 ? isLeft : 1` expression, and `isUseInt`
is left unchanged (it is only ever set by the integer form). -/
def MapCondition.setConstDbl (c : MapCondition) (use : Rat) (isLeft : Bool) :
    MapCondition :=
  { c with
    constOperand := 1
    useDouble := use
    anyLHS := if isLeft then false else c.anyLHS
    anyRHS := if isLeft then c.anyRHS else false }

/-- Concrete kind of an `InstMapEntry` (the derived classes of CGRAInstMap.hpp
324-459). -/
inductive EntryKind
  | binaryOp (ops : String)
  | compareOp (isInteger : Bool)
  | memoryOp (isLoad : Bool)
  | customOp
  deriving DecidableEq, Repr

/-- An instruction-map entry; `pid` models the allocation identity of the
`shared_ptr` holding the entry. -/
structure InstMapEntry where
  pid : Nat
  opcodeStr : String
  kind : EntryKind
  cond : MapCondition
  deriving DecidableEq, Repr

/-- Per-kind `match(Instruction*)` (CGRAInstMap.cpp 331-394).  `annot` is the
set of function names annotated `cgra_custom_inst` (the module annotation
analysis consulted by `CustomInstMapEntry::isCustomOpFunc`).  In
`CompOpMapEntry::match` (lines 357-368) both branches of the source test
`I->getOpcode() == Instruction::OtherOps::ICmp`, so an fcmp instruction falls
through to `return false` for either value of `isInteger`, while an icmp
instruction reaches `map_cond->match(I)` for either value. -/
def InstMapEntry.matchInst (annot : List String) (e : InstMapEntry)
    (I : Instruction) : Bool :=
  match e.kind with
  | .binaryOp ops =>
    match I.op with
    | .binary iop => (iop == ops) && e.cond.matchInst I
    | _ => false
  | .compareOp isInteger =>
    match I.op with
    | .icmpOp _ =>
      if isInteger then e.cond.matchInst I
      else e.cond.matchInst I
    | .fcmpOp _ => false
    | _ => false
  | .memoryOp isLoad =>
    match I.op with
    | .loadOp => isLoad
    | .storeOp => !isLoad
    | _ => false
  | .customOp =>
    match I.op with
    | .callOp callee =>
      (callee == e.opcodeStr) && annot.contains callee && e.cond.matchInst I
    | _ => false

/-- `InstMap` state (CGRAInstMap.hpp 512-523): the ordered entry list, the
default-entry table (`StringMap<entry_ptr>`, where a `none` value models a
stored nullptr), and a fresh-allocation counter for entry identities. -/
structure InstMap where
  entries : List InstMapEntry
  defaults : List (String × Option Nat)
  nextPid : Nat
  deriving DecidableEq, Repr

/-- An `InstMap` with no entries. -/
def emptyInstMap : InstMap :=
  { entries := [], defaults := [], nextPid := 0 }

/-- Lookup in the default-entry table: `none` when the opcode has no binding,
`some none` when it is bound to nullptr, `some (some p)` when it is bound to
the entry with identity `p`. -/
def InstMap.lookupDefault (m : InstMap) (op : String) : Option (Option Nat) :=
  (m.defaults.find? fun p => p.1 == op).map Prod.snd

/-- Opcodes of the `BINOP_ENTRY` rows of `InstMap::entry_gen`
(CGRAInstMap.cpp 288-300). -/
def binopOpcodes : List String :=
  ["add", "fadd", "sub", "fsub", "mul", "fmul", "udiv", "sdiv", "fdiv",
   "urem", "frem", "srem", "shl", "lshr", "ashr", "and", "or", "xor"]

/-- Entry kind produced by the `InstMap::entry_gen` table (CGRAInstMap.cpp
288-300) for a given opcode; `none` models an opcode absent from the table. -/
def entryGenKind (op : String) : Option EntryKind :=
  if binopOpcodes.contains op then some (.binaryOp op)
  else if op == "icmp" then some (.compareOp true)
  else if op == "fcmp" then some (.compareOp false)
  else if op == "load" then some (.memoryOp true)
  else if op == "store" then some (.memoryOp false)
  else none

/-- Run an `entry_gen` generator: with no condition the entry receives the
default `MapCondition(opcode)`, otherwise the given condition
(CGRAInstMap.hpp 63-83 together with 255-268). -/
def makeEntry (pid : Nat) (op : String) (k : EntryKind)
    (cond : Option MapCondition) : InstMapEntry :=
  { pid := pid
    opcodeStr := op
    kind := k
    cond :=
      match cond with
      | some c => c
      | none => mkMapCondition op }

/-- `InstMap::add_generic_inst` (CGRAInstMap.cpp 205-227): an opcode already
in the default table is ignored (warning only); otherwise a default entry is
generated, appended to the entry list and recorded in the default table. -/
def InstMap.add_generic_inst (m : InstMap) (op : String) :
    Except String InstMap :=
  if (m.lookupDefault op).isSome then .ok m
  else
    match entryGenKind op with
    | some k =>
      let x := makeEntry m.nextPid op k none
      .ok { entries := m.entries ++ [x]
            defaults := m.defaults ++ [(op, some x.pid)]
            nextPid := m.nextPid + 1 }
    | none =>
      .error ("Unknown opcode \"" ++ op ++ "\" for the supported instructions")

/-- `InstMap::add_map_entry` (CGRAInstMap.cpp 257-285): an opcode absent from
the default table is an error; a live default entry is erased from the entry
list (the while loop of lines 266-273 removes every list element equal to the
stored pointer), the new conditional entry is appended and the table slot is
set to nullptr; with the slot already nullptr the new entry is only appended.
The generator lookup `entry_gen[opcode]` cannot fail on this path in the
source because every opcode in the default table was created through a
generator; the error value of the `none` branch models that unreachable
case. -/
def InstMap.add_map_entry (m : InstMap) (op : String) (c : MapCondition) :
    Except String InstMap :=
  match m.lookupDefault op with
  | none =>
    .error ("A mapping condition for not supported insruction \"" ++ op ++
      "\" is specified")
  | some (some d) =>
    match entryGenKind op with
    | some k =>
      .ok { entries := m.entries.filter (fun e => e.pid ≠ d) ++
              [makeEntry m.nextPid op k (some c)]
            defaults := m.defaults.map fun p =>
              if p.1 == op then (p.1, none) else p
            nextPid := m.nextPid + 1 }
    | none => .error "no generator for a default entry"
  | some none =>
    match entryGenKind op with
    | some k =>
      .ok { entries := m.entries ++ [makeEntry m.nextPid op k (some c)]
            defaults := m.defaults
            nextPid := m.nextPid + 1 }
    | none => .error "no generator for a default entry"

/-- `InstMap::find(Instruction*)` (CGRAInstMap.cpp 313-321): walk the entry
list in order, returning the first entry whose `match` accepts `I`. -/
def InstMap.find (annot : List String) (m : InstMap) (I : Instruction) :
    Option InstMapEntry :=
  m.entries.find? fun e => e.matchInst annot I

/-! ## DFG node insertion
Embeds `DFGNode::isEqualTo` (src/include/CGRADataFlowGraph.hpp 116-118) and
`CGRADFG::addNode` (src/src/Passes/CGRAOmpComponents/CGRADataFlowGraph.cpp
97-111). -/

/-- A DFG node: `ptr` models the allocation identity of the node object, `nid`
its integer `ID` field (the virtual root uses `VROOT_NODE_ID = -1`). -/
structure DfgNode where
  ptr : Nat
  nid : Int
  deriving DecidableEq, Repr

/-- `DFGNode::isEqualTo` (CGRADataFlowGraph.hpp 116-118): nodes compare equal
when their IDs coincide; `DGNode::operator==` dispatches to it. -/
def DfgNode.isEqualTo (a b : DfgNode) : Bool := a.nid == b.nid

/-- The `CGRADFG` graph state: the node list of the underlying
`DirectedGraph` (the virtual root is its first element after construction) and
the edge list, an edge being (source node identity, target node identity,
operand index). -/
structure CGRADFGraph where
  nodes : List DfgNode
  edges : List (Nat × Nat × Nat)
  rootPtr : Nat
  deriving DecidableEq, Repr

/-- `CGRADFG::addNode` (CGRADataFlowGraph.cpp 97-111): scan the node list for
a node equal to `N` (by ID); when found return it and leave the graph
unchanged.  Otherwise append `N` (the base-class `addNode`) and connect the
virtual root to it with a fresh `DFGEdge` of operand index 0 (the base-class
`connect`). -/
def CGRADFGraph.addNode (g : CGRADFGraph) (N : DfgNode) :
    Option DfgNode × CGRADFGraph :=
  match g.nodes.find? fun V => N.isEqualTo V with
  | some V => (some V, g)
  | none =>
    (some N,
      { g with
        nodes := g.nodes ++ [N]
        edges := g.edges ++ [(g.rootPtr, N.ptr, 0)] })

/-! ## Schedule extraction and its consumption by the verify passes
Embeds `OmpScheduleInfo` (src/include/CGRAOmpPass.hpp 277-351),
`OmpStaticShecudleAnalysis::run` (src/src/Passes/CGRAOmpPass/CGRAOmpPass.cpp
283-329) and the schedule gate of `DecoupledVerifyPass::run`
(src/src/Passes/CGRAOmpVerifyPass/VerifyPass.cpp 273-296). -/

/-- An instruction of the outlined kernel function as seen by the schedule
analysis: a call (callee name and operand value identities; the call-base
operand list ends with the callee, `getNumOperands` counts all of them) or
anything else. -/
inductive FInst
  | callI (callee : String) (operands : List Nat)
  | otherI
  deriving DecidableEq, Repr

/-- Callee-name test of CGRAOmpPass.cpp line 292. -/
def isScheduleInitCall : FInst → Bool
  | .callI callee _ => callee.startsWith "__kmpc_for_static_init"
  | .otherI => false

/-- The block-wise scan of CGRAOmpPass.cpp 287-301: first matching call in the
first block containing one. -/
def findScheduleInitCall (F : List (List FInst)) : Option FInst :=
  F.findSome? fun BB => BB.find? isScheduleInitCall

/-- Insertion into a `SetVector` backing list: append unless present. -/
def setVectorInsert (l : List (Option Nat)) (v : Option Nat) :
    List (Option Nat) :=
  if l.contains v then l else l ++ [v]

/-- `OmpScheduleInfo` (CGRAOmpPass.hpp 277-351): validity flag, the
`SetVector` of the seven schedule-related operand values (entries are `none`
for the nullptr values inserted by the invalid constructor), and the call
site. -/
structure OmpScheduleInfo where
  valid : Bool
  info : List (Option Nat)
  caller : Option FInst
  deriving DecidableEq, Repr

/-- The invalid-info constructor `OmpScheduleInfo()` (CGRAOmpPass.hpp
298-303): `valid = false` and `OMP_STATIC_INIT_OPERAND_N` = 9 insertions of
nullptr into the set (which keeps a single entry). -/
def invalidScheduleInfo : OmpScheduleInfo :=
  { valid := false
    info := (List.range 9).foldl (fun acc _ => setVectorInsert acc none) []
    caller := none }

/-- `OmpScheduleInfo::contains` (CGRAOmpPass.hpp 316-318). -/
def OmpScheduleInfo.containsVal (si : OmpScheduleInfo) (v : Nat) : Bool :=
  si.info.contains (some v)

/-- `OmpStaticShecudleAnalysis::run` (CGRAOmpPass.cpp 283-329): find the first
call whose callee name starts with `__kmpc_for_static_init`; with at least
`OMP_STATIC_INIT_OPERAND_N` = 9 operands its operands 2..8 (schedule type,
last-iteration flag, lower bound, upper bound, stride, increment, chunk) form
a valid `OmpScheduleInfo`; otherwise the invalid info is returned. -/
def ompStaticShecudleAnalysisRun (F : List (List FInst)) : OmpScheduleInfo :=
  match findScheduleInitCall F with
  | some (.callI callee ops) =>
    if 9 ≤ ops.length then
      { valid := true
        info := (List.range 7).foldl
          (fun acc i => setVectorInsert acc (ops.get? (2 + i))) []
        caller := some (.callI callee ops) }
    else invalidScheduleInfo
  | _ => invalidScheduleInfo

/-- Outcome of the entry portion of a verify pass run: either the process is
terminated through `ExitOnError`, or the pass proceeds to the per-kernel
work. -/
inductive VerifyRunOutcome
  | fatalError (msg : String)
  | proceeds
  deriving DecidableEq, Repr

/-- The schedule gate of `DecoupledVerifyPass::run` (VerifyPass.cpp 286-292):
when the cached `OmpStaticShecudleAnalysis` result converts to false, the pass
constructs `ExitOnError` and exits the process with the error "Fail to find
OpenMP scheduling info"; otherwise it continues with loop discovery,
decoupling and the remaining verification (`TimeMultiplexedVerifyPass::run`
lines 193-198 has the identical gate). -/
def decoupledVerifyRunGate (F : List (List FInst)) : VerifyRunOutcome :=
  let SI := ompStaticShecudleAnalysisRun F
  if SI.valid then .proceeds
  else .fatalError "Fail to find OpenMP scheduling info"

/-! ## Memory-access decoupling
Embeds `DecoupledAnalysisPass::run` and `DecoupledAnalysisPass::isPointerValue`
(src/src/Passes/CGRAOmpVerifyPass/DecoupledAnalysis.cpp 54-211); the
invariant-recording loop of lines 139-192 only fills the invariant list and
never touches the error tag or the memory access lists, and is outside the
properties treated here. -/

/-- A value operand inside the innermost loop body. -/
inductive DVal
  | instRef (id : Nat)
  | constV (c : Int)
  | argRef (id : Nat)
  deriving DecidableEq, Repr

/-- Instruction kinds relevant to decoupling. -/
inductive DKind
  | loadK
  | storeK
  | otherK
  deriving DecidableEq, Repr

/-- An instruction of the innermost loop body: identity, kind, operands, and
whether its loaded value has pointer type (for loads:
`DecoupledAnalysisPass::isPointerValue`, the pointer-of-pointer test of
DecoupledAnalysis.cpp 203-211). -/
structure DInst where
  iid : Nat
  kind : DKind
  operands : List DVal
  ptrOfPtr : Bool
  deriving DecidableEq, Repr

/-- First operand of an instruction (a load's pointer operand). -/
def DInst.opd0 (i : DInst) : DVal := i.operands.headD (.constV 0)

/-- Users of value `v` among the loop body, in body order (the source walks
`v->users()`; only body instructions matter to the flood's outcome on a
perfectly nested kernel). -/
def usersOf (body : List DInst) (v : Nat) : List DInst :=
  body.filter fun u => u.operands.contains (.instRef v)

/-- Inner loop of the breadth-first flood (DecoupledAnalysis.cpp 106-117):
scan the users of the popped node; a load user aborts decoupling with the
loop-dependent-loads error; any user not yet traversed is pushed and marked
traversed. -/
def expandUsers :
    List DInst → List Nat → List Nat → Except String (List Nat × List Nat)
  | [], fifo, traversed => .ok (fifo, traversed)
  | u :: rest, fifo, traversed =>
    if u.kind == .loadK then
      .error "Loop dependent mem loads are included"
    else if traversed.contains u.iid then expandUsers rest fifo traversed
    else expandUsers rest (fifo ++ [u.iid]) (traversed ++ [u.iid])

/-- The breadth-first flood from the memory loads (DecoupledAnalysis.cpp
101-119).  A popped node that is a recorded store is not expanded.  `fuel`
bounds the iteration count; every pushed node first enters `traversed`, so any
fuel of at least seeds + body length covers the source's loop, whose queue
can only hold the seeds plus each body instruction once. -/
def floodBFS (body : List DInst) (stores : List Nat) :
    Nat → List Nat → List Nat → Except String (List Nat)
  | 0, _, traversed => .ok traversed
  | _ + 1, [], traversed => .ok traversed
  | fuel + 1, v :: fifoRest, traversed =>
    if stores.contains v then floodBFS body stores fuel fifoRest traversed
    else
      match expandUsers (usersOf body v) fifoRest traversed with
      | .error e => .error e
      | .ok pr => floodBFS body stores fuel pr.1 pr.2

/-- Result of the decoupling analysis: the recorded load, store and
computation lists, and the error tag set by `setError`. -/
structure DecoupledAnalysisRes where
  memLoad : List Nat
  memStore : List Nat
  comp : List Nat
  err : Option String
  deriving DecidableEq, Repr

/-- `DecoupledAnalysisPass::run` on the innermost loop body
(DecoupledAnalysis.cpp 54-135, 194-199).  `schedSet` holds the values of the
cached schedule info (the `SI->contains` test of line 81).  Loads whose
pointer operand is schedule-related or whose result is again a pointer are
excluded from the seeds; all stores are recorded; the flood runs from the
seeds; decoupling fails when the flood meets a load, or when fewer stores are
reached by the flood than the loop contains (lines 121-132); otherwise the
traversed non-store nodes form the computation set. -/
def decoupledAnalysisPassRun (schedSet : List DVal) (body : List DInst) :
    DecoupledAnalysisRes :=
  let memLoad := body.filter fun i =>
    i.kind == .loadK && !(schedSet.contains i.opd0) && !i.ptrOfPtr
  let memStore := body.filter fun i => i.kind == .storeK
  let storeIds := memStore.map DInst.iid
  let seeds := memLoad.map DInst.iid
  match floodBFS body storeIds (seeds.length + body.length + 1) seeds [] with
  | .error e => { memLoad := [], memStore := [], comp := [], err := some e }
  | .ok traversed =>
    let reached := traversed.filter fun t => storeIds.contains t
    let compIds := traversed.filter fun t => !storeIds.contains t
    if reached.length < storeIds.length then
      { memLoad := [], memStore := [], comp := [],
        err := some "Unreachable store exists" }
    else
      { memLoad := seeds, memStore := storeIds, comp := compIds, err := none }

/-! ## Affine address-generator verification
Embeds `createAffineAG` (src/src/Passes/CGRAModel/CGRAModel.cpp 267-297), the
`AffineAG` model object (src/include/CGRAModel.hpp 288-318),
`verifySCEVAsAffineAG` and `parseStartSCEV`
(src/src/Passes/CGRAOmpVerifyPass/AGVerifyPass.cpp 158-282). -/

/-- Scalar-evolution expressions over the pointer of a memory access.
`SCEVCommutativeExpr` operand lists are represented in their binary form; the
walk treats the two operands exactly as the source's loop over
`SA->operands()` treats each operand. -/
inductive SCEV
  | scConstant (v : Int)
  | scUnknown (valId : Nat)
  | scAddRec (start : SCEV) (step : SCEV) (trip : Nat)
  | scAdd (a : SCEV) (b : SCEV)
  | scMul (a : SCEV) (b : SCEV)
  | scSignExt (op : SCEV)
  | scZeroExt (op : SCEV)
  | scTruncateE (op : SCEV)
  | scPtrToInt (op : SCEV)
  | scOther
  deriving DecidableEq, Repr

/-- Structural weight of a SCEV, used as the termination measure of the
depth-first walk. -/
def SCEV.weight : SCEV → Nat
  | .scConstant _ => 1
  | .scUnknown _ => 1
  | .scAddRec start step _ => 1 + start.weight + step.weight
  | .scAdd a b => 1 + a.weight + b.weight
  | .scMul a b => 1 + a.weight + b.weight
  | .scSignExt op => 1 + op.weight
  | .scZeroExt op => 1 + op.weight
  | .scTruncateE op => 1 + op.weight
  | .scPtrToInt op => 1 + op.weight
  | .scOther => 1

/-- Weight of a walk stack. -/
def stackWeight (l : List SCEV) : Nat := (l.map SCEV.weight).sum

/-- One dimension of an affine address configuration
(`AffineAGCompatibility::DimEntry_t`). -/
structure DimEntry where
  start : Int
  step : Int
  count : Nat
  deriving DecidableEq, Repr

/-- `AffineAGCompatibility::ConfigTy`: validity, dimension list, optional base
value. -/
structure AGConfig where
  valid : Bool
  config : List DimEntry
  base : Option Nat
  deriving DecidableEq, Repr

/-- The int accumulation `*offset += *(const_scev->getAPInt().getRawData())`
of AGVerifyPass.cpp line 268: the `int` is converted to `uint64_t`, the raw
limb added, and the sum narrowed back to `int`. -/
def intPlusRaw (off : Int) (raw : Nat) : Int :=
  toInt32 (((off % 2 ^ 64).toNat + raw) % 2 ^ 64)

/-- The operand loop of `parseStartSCEV` (AGVerifyPass.cpp 266-274):
constants accumulate into the offset, a second unknown aborts with false, any
other operand is ignored. -/
def parseStartOps :
    List SCEV → Option Nat → Int → Option Nat × Int × Bool
  | [], base, off => (base, off, true)
  | op :: rest, base, off =>
    match op with
    | .scConstant v => parseStartOps rest base (intPlusRaw off (rawLimb v))
    | .scUnknown valId =>
      if base.isSome then (base, off, false)
      else parseStartOps rest (some valId) off
    | _ => parseStartOps rest base off

/-- `parseStartSCEV` (AGVerifyPass.cpp 260-282): decompose a start expression
as base plus constant offset.  An addition is scanned operand-wise (the
source rejects additions of more than two operands, which the binary
representation cannot form); a lone unknown is the base; anything else leaves
base and offset at their initial values and reports success. -/
def parseStartSCEV : SCEV → Option Nat × Int × Bool
  | .scAdd a b => parseStartOps [a, b] none 0
  | .scUnknown valId => (some valId, 0, true)
  | _ => (none, 0, true)

/-- The depth-first search of `verifySCEVAsAffineAG` (AGVerifyPass.cpp
174-256).  The flag is `end_addrec`: it turns true when the walk first
processes a non-AddRec node and never turns back.  An AddRec met with the
flag raised, a non-constant AddRec step, or an unsupported SCEV kind calls
`invalidate()`, which clears the stack and marks the configuration invalid.
A valid AddRec records the dimension entry (start offset, narrowed raw step,
small constant trip count) at the front of the configuration, stores the base
when `parseStartSCEV` succeeds, and pushes its start expression.  Additions,
multiplications and casts push their operands (the second operand first, as
the source pushes operands in order onto the stack and pops from the back);
constants and unknowns are terminal. -/
def agWalk : Bool → List SCEV → AGConfig → AGConfig
  | _, [], C => C
  | endAddrec, scev :: rest, C =>
    match scev with
    | .scAddRec start step trip =>
      if endAddrec then { C with valid := false }
      else
        match step with
        | .scConstant sv =>
          let pr := parseStartSCEV start
          let C1 := if pr.2.2 then { C with base := pr.1 } else C
          let entry : DimEntry :=
            { start := pr.2.1, step := toInt32 (rawLimb sv), count := trip }
          agWalk endAddrec (start :: rest) { C1 with config := entry :: C1.config }
        | _ => { C with valid := false }
    | .scAdd a b => agWalk true (b :: a :: rest) C
    | .scMul a b => agWalk true (b :: a :: rest) C
    | .scSignExt op => agWalk true (op :: rest) C
    | .scZeroExt op => agWalk true (op :: rest) C
    | .scTruncateE op => agWalk true (op :: rest) C
    | .scPtrToInt op => agWalk true (op :: rest) C
    | .scConstant _ => agWalk true rest C
    | .scUnknown _ => agWalk true rest C
    | .scOther => { C with valid := false }
termination_by _ stack _ => stackWeight stack
decreasing_by
  all_goals simp [stackWeight, SCEV.weight]
  all_goals omega

/-- `verifySCEVAsAffineAG` (AGVerifyPass.cpp 158-258): run the walk on the
access expression with a fresh configuration marked valid.  Note the walk
receives no address-generator argument: the `AffineAG` object obtained in
`VerifyAGCompatiblePass<AffineAGCompatibility>::run` (AGVerifyPass.cpp 68) is
never consulted. -/
def verifySCEVAsAffineAG (S : SCEV) : AGConfig :=
  agWalk false [S] { valid := true, config := [], base := none }

/-- The `AffineAG` model object (CGRAModel.hpp 288-318): the configured
maximum nested level. -/
structure AffineAG where
  maxNests : Int
  deriving DecidableEq, Repr

/-- `INT_MAX`, the default `max_nests` of `AffineAG()` (CGRAModel.hpp 292). -/
def intMax : Int := 2 ^ 31 - 1

/-- `createAffineAG` (CGRAModel.cpp 267-297) on a configuration whose
`max_nested_level`, when present, parsed as an integer: a positive value is
stored, a non-positive value is a model error, and an absent key means no
limitation (`INT_MAX`). -/
def createAffineAG (maxNestedLevel : Option Int) : Except String AffineAG :=
  match maxNestedLevel with
  | some v =>
    if v > 0 then .ok { maxNests := v }
    else .error ("invalid value for key max_nested_level: " ++ toString v)
  | none => .ok { maxNests := intMax }

/-- Definition following the words of the spec, for comparison with the
source behaviour: the AddRec nesting depth of an address expression, counting
recursion through the start operand. -/
def specAddRecDepth : SCEV → Nat
  | .scAddRec start _ _ => 1 + specAddRecDepth start
  | _ => 0

/-- A nest of constant-step AddRecs of the given depth over an unknown base
value. -/
def mkNest (base : Nat) (step : Int) (trip : Nat) : Nat → SCEV
  | 0 => .scUnknown base
  | n + 1 => .scAddRec (mkNest base step trip n) (.scConstant step) trip

/-! ## Loop-dependency analysis: memory-carried dependencies
Embeds the memory-dependence section of `LoopDependencyAnalysisPass::run`
(src/src/Passes/CGRAOmpVerifyPass/LoopDependencyAnalysis.cpp 113-146) and
`LoopDependencyAnalysisPass::getDistance` (lines 148-183). -/

/-- The scalar evolution of a memory-access pointer, as far as
`SE.getMinusSCEV` on two accesses of the loop can see it: a base object and a
constant byte offset.  The subtraction of two pointer SCEVs simplifies to a
constant exactly when the bases coincide. -/
structure PtrSCEV where
  base : Nat
  offset : Int
  deriving DecidableEq, Repr

/-- `SE.getMinusSCEV` followed by the `SCEVConstant` test of
LoopDependencyAnalysis.cpp line 173. -/
def getMinusSCEV (a b : PtrSCEV) : Option Int :=
  if a.base = b.base then some (a.offset - b.offset) else none

/-- A dependence endpoint: a load or store with its pointer SCEV and the
byte width of the accessed value (`getPrimitiveSizeInBits() / 8`), or any
other instruction. -/
inductive AccessInst
  | loadA (ptr : PtrSCEV) (width : Nat)
  | storeA (ptr : PtrSCEV) (width : Nat)
  | otherA
  deriving DecidableEq, Repr

/-- Pointer operand selected by `getDistance` (operand 0 of a load, operand 1
of a store). -/
def AccessInst.accessPtr : AccessInst → Option PtrSCEV
  | .loadA p _ => some p
  | .storeA p _ => some p
  | .otherA => none

/-- Access width selected by `getDistance`. -/
def AccessInst.accessWidth : AccessInst → Nat
  | .loadA _ w => w
  | .storeA _ w => w
  | .otherA => 0

/-- `LoopDependencyAnalysisPass::getDistance` (LoopDependencyAnalysis.cpp
148-183): with both pointers available and the SCEV difference of A minus B a
constant, return the raw 64-bit limb of that constant divided by the word
size of A, narrowed to `int`; otherwise `None`. -/
def getDistance (A B : AccessInst) : Option Int :=
  match A.accessPtr, B.accessPtr with
  | some pa, some pb =>
    match getMinusSCEV pa pb with
    | some d => some (toInt32 (rawLimb d / A.accessWidth))
    | none => none
  | _, _ => none

/-- A dependence produced by the host framework's `LoopAccessAnalysis`
dependence checker. -/
structure Dependence where
  isBackward : Bool
  source : AccessInst
  destination : AccessInst
  deriving DecidableEq, Repr

/-- A recorded `MemoryLoopDependency` (its distance field;
LoopDependencyAnalysis.hpp 118-128). -/
structure MemLoopDep where
  distance : Int
  deriving DecidableEq, Repr

/-- One iteration of the memory-dependence loop of
`LoopDependencyAnalysisPass::run` (LoopDependencyAnalysis.cpp 118-143): for a
backward dependence whose source is a load and whose destination is a store,
compute `getDistance(def, use)`; when it is a constant no greater than the
`mem-dep-distance` threshold, record a `MemoryLoopDependency` of that
distance. -/
def recordDep (threshold : Int) (dep : Dependence) : List MemLoopDep :=
  if dep.isBackward then
    match dep.source, dep.destination with
    | .loadA pu wu, .storeA pd wd =>
      match getDistance (.storeA pd wd) (.loadA pu wu) with
      | some dist =>
        if dist ≤ threshold then [{ distance := dist }] else []
      | none => []
    | _, _ => []
  else []

/-- The memory dependencies recorded over the whole dependence list, in
order. -/
def loopDepMemDeps (threshold : Int) (deps : List Dependence) :
    List MemLoopDep :=
  deps.flatMap (recordDep threshold)

/-! ## Decoupled kernel verification, registration, remark and graph emission
Embeds the inter-loop-dependency arm of `DecoupledVerifyPass::run`
(src/src/Passes/CGRAOmpVerifyPass/VerifyPass.cpp 309-389), the result
aggregation `LoopVerifyResult::bool_operator_impl` (VerifyPass.cpp 163-174),
`VerifyPassBase::remarkEmitter` (VerifyPass.cpp 449-476) and the kernel
selection of `DFGPassHandler::createDataFlowGraphsForAllKernels`
(src/src/Passes/CGRAOmpDFGPass/DFGPass.cpp 255-273). -/

/-- The two inter-loop-dependency capabilities reaching
`DecoupledVerifyPass::run` (the `Generic` capability hits
`llvm_unreachable`). -/
inductive InterLoopDepTy
  | noDep
  | backwardInst
  deriving DecidableEq, Repr

/-- A verification sub-result as stored in a `LoopVerifyResult`: the static
class name, the message given to the `SimpleVerifyResult` constructor, and
the violation flag. -/
structure SubResult where
  title : String
  message : String
  violated : Bool
  deriving DecidableEq, Repr

/-- Modelled from the spec: `SimpleVerifyResult::getName`, used by
`remarkEmitter` at VerifyPass.cpp line 469, is declared in the revision of
VerifyPass.hpp that matches src/src/Passes/CGRAOmpVerifyPass/VerifyPass.cpp;
that header revision is not present under src/ (the VerifyPass.hpp under
src/include is an older revision without this member).  The spec describes a
verification result's surface as a short textual remark plus a pass/fail
flag, and requires the remark of a kernel rejected for inter-loop
dependencies to carry the text "including 1 inter loop dependencies";
accordingly, the name under which a sub-result is listed in the remark is its
textual remark message. -/
def SubResult.getName (r : SubResult) : String := r.message

/-- Per-kernel analysis facts feeding one iteration of the kernel loop of
`DecoupledVerifyPass::run` (VerifyPass.cpp 309-389). -/
structure KernelInput where
  loopName : String
  decoupleMsg : String
  decoupleViolated : Bool
  numDep : Nat
  numMemDep : Nat
  instAvailViolated : Bool
  instAvailMsg : String
  agViolated : Bool
  deriving DecidableEq, Repr

/-- The `InterLoopDep::No` arm of VerifyPass.cpp 325-344: `dep_cout` is the
number of register-carried plus memory-carried dependencies; a positive count
yields a violated result with the message "including N inter loop
dependencies", otherwise a passing result with "No dependency".  Under
`BackwardInst` no inter-loop sub-result is registered (the dependencies only
populate the availability exception set). -/
def interLoopSubResult (ty : InterLoopDepTy) (k : KernelInput) :
    Option SubResult :=
  match ty with
  | .noDep =>
    let depCout := k.numDep + k.numMemDep
    if depCout > 0 then
      some { title := "Inter loop dependency"
             message := "including " ++ toString depCout ++
               " inter loop dependencies"
             violated := true }
    else
      some { title := "Inter loop dependency"
             message := "No dependency"
             violated := false }
  | .backwardInst => none

/-- The sub-results registered into the kernel's `LoopVerifyResult` by one
iteration of the kernel loop (VerifyPass.cpp 312-383): the decoupling result,
the inter-loop-dependency result when produced, the instruction-availability
result and the address-generator compatibility result. -/
def kernelVerifyResults (ty : InterLoopDepTy) (k : KernelInput) :
    List SubResult :=
  [{ title := "Memory access decoupling"
     message := k.decoupleMsg
     violated := k.decoupleViolated }] ++
  (match interLoopSubResult ty k with
   | some r => [r]
   | none => []) ++
  [{ title := "Instruction availability"
     message := k.instAvailMsg
     violated := k.instAvailViolated },
   { title := "Memory access"
     message := ""
     violated := k.agViolated }]

/-- `LoopVerifyResult::bool_operator_impl` (VerifyPass.cpp 163-174): the
kernel passes when no bundled sub-result is a violation. -/
def kernelPasses (ty : InterLoopDepTy) (k : KernelInput) : Bool :=
  (kernelVerifyResults ty k).all fun r => !r.violated

/-- An optimisation remark as emitted by `VerifyPassBase::remarkEmitter`
(VerifyPass.cpp 449-476): a valid-kernel remark, or a missed-kernel remark
listing each sub-result under its name with "PASS" or "VIOLATE". -/
inductive Remark
  | valid (loopName : String)
  | missed (loopName : String) (items : List (String × String))
  deriving DecidableEq, Repr

/-- `VerifyPassBase::remarkEmitter` (VerifyPass.cpp 449-476). -/
def remarkEmitter (loopName : String) (results : List SubResult) : Remark :=
  if results.all (fun r => !r.violated) then .valid loopName
  else
    .missed loopName
      (results.map fun r => (r.getName, if r.violated then "VIOLATE" else "PASS"))

/-- The kernels registered as valid by `DecoupledVerifyPass::run`
(VerifyPass.cpp 384-387): those whose `LoopVerifyResult` converts to true. -/
def registeredKernels (ty : InterLoopDepTy) (ks : List KernelInput) :
    List String :=
  (ks.filter fun k => kernelPasses ty k).map KernelInput.loopName

/-- The remarks emitted for the kernel list, in kernel order (VerifyPass.cpp
388). -/
def emittedRemarks (ty : InterLoopDepTy) (ks : List KernelInput) :
    List Remark :=
  ks.map fun k => remarkEmitter k.loopName (kernelVerifyResults ty k)

/-- Kernel selection of `DFGPassHandler::createDataFlowGraphsForAllKernels`
(DFGPass.cpp 255-273): a data-flow graph is created exactly for the loops in
`verify_result.kernels()`, i.e. the registered kernels. -/
def graphsEmittedFor (ty : InterLoopDepTy) (ks : List KernelInput) :
    List String :=
  registeredKernels ty ks

/-! ## Theorems -/

/-- C2: evaluation of the datatype encoding at the failing inputs.  The claim
says an N-bit integer-typed source is encoded `intN` and an N-bit
floating-point-typed source `floatN`; `DataNode::getTypeName` (hpp 281-285)
emits the two prefixes the other way round: a 32-bit integer source yields
"float32" and a 32-bit float source yields "int32", both for the bare
attribute of `ConstantNode::getConstStr` / `GlobalDataNode::getDataStr` and
inside the address wrapper of a pointer-typed source. -/
theorem C2_datatype_encoding_swapped :
    getTypeName (.integer 32) = "float32" ∧
    getTypeName (.floating .flt) = "int32" ∧
    getConstStr { val := .constInt (.integer 32) 10, skipSeq := [] } =
      "datatype=float32,value=10" ∧
    getDataStr { val := .namedVal (.floating .dbl) "g", skipSeq := [] } =
      "datatype=\"int64\",value=\"g\"" ∧
    getTypeName (.pointer (.integer 32)) = "\"address<float32>\"" :=
  ⟨rfl, rfl, rfl, rfl, rfl⟩

/-- C5: evaluation of compare-entry matching at the failing input.  The claim
says a Compare entry with `isInteger = false` matches only fcmp instructions
and one with `isInteger = true` only icmp instructions; in
`CompOpMapEntry::match` (CGRAInstMap.cpp 357-368) both branches test for the
icmp opcode, so the default fcmp entry (`isInteger = false`) rejects every
fcmp instruction — `InstMap::find` returns no entry for an fcmp even though
the map holds the fcmp default entry — while the same entry accepts an icmp
instruction. -/
theorem C5_compare_entry_tests_icmp_twice :
    InstMap.find []
        { entries := [makeEntry 0 "fcmp" (.compareOp false) none]
          defaults := [("fcmp", some 0)]
          nextPid := 1 }
        { op := .fcmpOp 1, operands := [.value 0, .value 1], flags := [] } =
      none ∧
    (makeEntry 0 "fcmp" (.compareOp false) none).matchInst []
        { op := .fcmpOp 1, operands := [.value 0, .value 1], flags := [] } =
      false ∧
    (makeEntry 0 "fcmp" (.compareOp false) none).matchInst []
        { op := .icmpOp 32, operands := [.value 0, .value 1], flags := [] } =
      true := by
  decide

/-- C6: evaluation of the constant-operand clause at the failing input.  The
claim says an lhs clause tests operand index 0; `MapCondition::setConst`
(CGRAInstMap.cpp line 169, `const_operand = 0 ? isLeft : 1`) stores operand
index 1 for both sides, so an lhs ConstantInt 5 clause rejects an add whose
left operand is the constant 5 and accepts an add whose right operand is,
behaving exactly like the rhs clause. -/
theorem C6_lhs_clause_tests_right_operand :
    ((mkMapCondition "addc").setConstInt 5 true).matchInst
        { op := .binary "add", operands := [.constantInt 5, .value 1],
          flags := [] } = false ∧
    ((mkMapCondition "addc").setConstInt 5 true).matchInst
        { op := .binary "add", operands := [.value 1, .constantInt 5],
          flags := [] } = true ∧
    ((mkMapCondition "addc").setConstInt 5 false).matchInst
        { op := .binary "add", operands := [.value 1, .constantInt 5],
          flags := [] } = true := by
  decide

/-- C9: the instruction map keeps at most one default entry per opcode.
Adding a conditional map entry for an opcode whose default entry (identity
`d`) still exists removes that default from the entry list, keeps the other
entries in order, appends the new conditional entry, and sets the default
slot of the opcode to nullptr; a further conditional entry for the same
opcode is then only appended. -/
theorem C9_default_entry_displacement (m : InstMap) (op : String)
    (c c2 : MapCondition) (d : Nat) (k : EntryKind)
    (hdef : m.lookupDefault op = some (some d))
    (hgen : entryGenKind op = some k) :
    ∃ m2, m.add_map_entry op c = .ok m2 ∧
      m2.entries = m.entries.filter (fun e => e.pid ≠ d) ++
        [makeEntry m.nextPid op k (some c)] ∧
      m2.lookupDefault op = some none ∧
      ∃ m3, m2.add_map_entry op c2 = .ok m3 ∧
        m3.entries = m2.entries ++ [makeEntry m2.nextPid op k (some c2)] := by
  classical
  have hdef0 := hdef
  unfold InstMap.lookupDefault at hdef
  obtain ⟨p0, hp0, hsnd⟩ := Option.map_eq_some'.mp hdef
  have hp0pred : (p0.1 == op) = true := by
    simpa using List.find?_some hp0
  have hmaplook : ∀ es np, InstMap.lookupDefault
      { entries := es
        defaults := m.defaults.map fun p =>
          if p.1 == op then (p.1, none) else p
        nextPid := np } op = some none := by
    intro es np
    unfold InstMap.lookupDefault
    have hcomp : ((fun p : String × Option Nat => p.1 == op) ∘ fun p =>
        if p.1 == op then (p.1, (none : Option Nat)) else p) =
        fun p => p.1 == op := by
      funext p
      by_cases h : (p.1 == op) = true <;> simp [Function.comp, h]
    simp only [List.find?_map, hcomp, hp0, Option.map_some']
    simp [hp0pred]
  refine ⟨{ entries := m.entries.filter (fun e => e.pid ≠ d) ++
              [makeEntry m.nextPid op k (some c)]
            defaults := m.defaults.map fun p =>
              if p.1 == op then (p.1, none) else p
            nextPid := m.nextPid + 1 }, ?_, rfl, hmaplook _ _, ?_⟩
  · unfold InstMap.add_map_entry
    rw [hdef0, hgen]
  · refine ⟨{ entries := (m.entries.filter (fun e => e.pid ≠ d) ++
                [makeEntry m.nextPid op k (some c)]) ++
                [makeEntry (m.nextPid + 1) op k (some c2)]
              defaults := m.defaults.map fun p =>
                if p.1 == op then (p.1, none) else p
              nextPid := m.nextPid + 1 + 1 }, ?_, rfl⟩
    unfold InstMap.add_map_entry
    rw [hmaplook _ _, hgen]

/-- C9 witness: a concrete map whose default entry for `add` is displaced by
a conditional entry. -/
theorem C9_witness :
    ∃ m2,
      InstMap.add_map_entry
          { entries := [makeEntry 0 "add" (.binaryOp "add") none]
            defaults := [("add", some 0)]
            nextPid := 1 } "add" (mkMapCondition "ADDC") = .ok m2 ∧
      m2.entries = [makeEntry 1 "add" (.binaryOp "add")
        (some (mkMapCondition "ADDC"))] ∧
      m2.lookupDefault "add" = some none := by
  obtain ⟨m2, h1, h2, h3, -⟩ :=
    C9_default_entry_displacement
      { entries := [makeEntry 0 "add" (.binaryOp "add") none]
        defaults := [("add", some 0)]
        nextPid := 1 } "add" (mkMapCondition "ADDC") (mkMapCondition "ADDC2")
      0 (.binaryOp "add") (by decide) (by decide)
  refine ⟨m2, h1, ?_, h3⟩
  rw [h2]
  decide

/-- C10: `CGRADFG::addNode` is idempotent at the public interface.  When the
graph already holds a node with the ID of `N`, `addNode` returns that
already-present node and the graph is returned unchanged: no node is added
and no virtual-root edge is created. -/
theorem C10_addNode_idempotent (g : CGRADFGraph) (N : DfgNode)
    (h : ∃ V ∈ g.nodes, V.nid = N.nid) :
    (g.addNode N).2 = g ∧
    ∃ W, (g.addNode N).1 = some W ∧ W ∈ g.nodes ∧ W.nid = N.nid := by
  obtain ⟨V, hV, hid⟩ := h
  have hsome : (g.nodes.find? fun V => N.isEqualTo V).isSome := by
    rw [List.find?_isSome]
    exact ⟨V, hV, by simp [DfgNode.isEqualTo, hid]⟩
  obtain ⟨W, hW⟩ := Option.isSome_iff_exists.mp hsome
  have hmem := List.mem_of_find?_eq_some hW
  have hprop : N.isEqualTo W = true := List.find?_some hW
  have hWid : W.nid = N.nid := by
    have hb : (N.nid == W.nid) = true := hprop
    exact (beq_iff_eq.mp hb).symm
  constructor
  · simp [CGRADFGraph.addNode, hW]
  · exact ⟨W, by simp [CGRADFGraph.addNode, hW], hmem, hWid⟩

/-- C10 witness: adding a node with the ID 42 to a concrete graph already
holding a node of ID 42 returns the present node and the unchanged graph. -/
theorem C10_witness :
    (CGRADFGraph.addNode
        { nodes := [{ ptr := 0, nid := -1 }, { ptr := 1, nid := 42 }]
          edges := [(0, 1, 0)]
          rootPtr := 0 } { ptr := 2, nid := 42 }).2 =
      { nodes := [{ ptr := 0, nid := -1 }, { ptr := 1, nid := 42 }]
        edges := [(0, 1, 0)]
        rootPtr := 0 } ∧
    ∃ W, (CGRADFGraph.addNode
        { nodes := [{ ptr := 0, nid := -1 }, { ptr := 1, nid := 42 }]
          edges := [(0, 1, 0)]
          rootPtr := 0 } { ptr := 2, nid := 42 }).1 = some W ∧
      W ∈ [({ ptr := 0, nid := -1 } : DfgNode), { ptr := 1, nid := 42 }] ∧
      W.nid = 42 :=
  C10_addNode_idempotent
    { nodes := [{ ptr := 0, nid := -1 }, { ptr := 1, nid := 42 }]
      edges := [(0, 1, 0)]
      rootPtr := 0 } { ptr := 2, nid := 42 }
    ⟨{ ptr := 1, nid := 42 }, by decide, rfl⟩

/-- C1 counterexample: a concrete kernel function with no call to a
`__kmpc_for_static_init` callee.  Schedule extraction indeed returns the
invalid `OmpScheduleInfo`, but processing the kernel is fatal, contradicting
the claim: `DecoupledVerifyPass::run` exits the process through `ExitOnError`
with "Fail to find OpenMP scheduling info" (VerifyPass.cpp 287-292) instead
of running downstream verification and decoupling. -/
theorem C1_counterexample :
    (ompStaticShecudleAnalysisRun
      [[.otherI, .callI "printf" [0, 1]]]).valid = false ∧
    decoupledVerifyRunGate [[.otherI, .callI "printf" [0, 1]]] =
      .fatalError "Fail to find OpenMP scheduling info" := by
  decide

/-- C1 (amended): for every kernel function without a call whose callee name
starts with `__kmpc_for_static_init`, schedule extraction returns the invalid
`OmpScheduleInfo` (which treats no value as schedule-related), and
`DecoupledVerifyPass::run` then terminates the process fatally with "Fail to
find OpenMP scheduling info" rather than proceeding to decoupling. -/
theorem C1_missing_schedule_call_is_fatal (F : List (List FInst))
    (h : ∀ BB ∈ F, ∀ I ∈ BB, isScheduleInitCall I = false) :
    ompStaticShecudleAnalysisRun F = invalidScheduleInfo ∧
    decoupledVerifyRunGate F =
      .fatalError "Fail to find OpenMP scheduling info" ∧
    ∀ v, (ompStaticShecudleAnalysisRun F).containsVal v = false := by
  have hfind : findScheduleInitCall F = none := by
    unfold findScheduleInitCall
    rw [List.findSome?_eq_none_iff]
    intro BB hBB
    rw [List.find?_eq_none]
    intro I hI
    simp [h BB hBB I hI]
  have hrun : ompStaticShecudleAnalysisRun F = invalidScheduleInfo := by
    unfold ompStaticShecudleAnalysisRun
    rw [hfind]
  have hinfo : invalidScheduleInfo.info = [none] := rfl
  refine ⟨hrun, ?_, ?_⟩
  · unfold decoupledVerifyRunGate
    rw [hrun]
    rfl
  · intro v
    rw [hrun]
    simp [OmpScheduleInfo.containsVal, hinfo]

/-- C1 witness: the amended statement at the concrete no-schedule-call
function. -/
theorem C1_witness :
    ompStaticShecudleAnalysisRun [[FInst.otherI]] = invalidScheduleInfo ∧
    decoupledVerifyRunGate [[FInst.otherI]] =
      .fatalError "Fail to find OpenMP scheduling info" ∧
    ∀ v, (ompStaticShecudleAnalysisRun [[FInst.otherI]]).containsVal v =
      false :=
  C1_missing_schedule_call_is_fatal [[FInst.otherI]] (by decide)

/-- Any error produced by the user-expansion step is the loop-dependent-loads
error. -/
theorem expandUsers_error {us : List DInst} {fifo tr : List Nat} {e : String}
    (h : expandUsers us fifo tr = .error e) :
    e = "Loop dependent mem loads are included" := by
  induction us generalizing fifo tr with
  | nil => simp [expandUsers] at h
  | cons u rest ih =>
    unfold expandUsers at h
    split at h
    · injection h with h2
      exact h2.symm
    · split at h
      · exact ih h
      · exact ih h

/-- Any error produced by the breadth-first flood is the loop-dependent-loads
error. -/
theorem floodBFS_error {body : List DInst} {stores : List Nat} {fuel : Nat}
    {fifo tr : List Nat} {e : String}
    (h : floodBFS body stores fuel fifo tr = .error e) :
    e = "Loop dependent mem loads are included" := by
  induction fuel generalizing fifo tr with
  | zero => simp [floodBFS] at h
  | succ n ih =>
    match fifo with
    | [] => simp [floodBFS] at h
    | v :: fifoRest =>
      unfold floodBFS at h
      split at h
      · exact ih h
      · cases hx : expandUsers (usersOf body v) fifoRest tr with
        | error e2 =>
          rw [hx] at h
          injection h with h2
          rw [← h2]
          exact expandUsers_error hx
        | ok pr =>
          rw [hx] at h
          exact ih h

/-- C4 counterexample: a concrete innermost loop body holding one load and
one arithmetic user but no store.  Decoupling returns a report with no error
at all, contradicting the claim that such a loop is rejected with the
"unreachable store" decoupling error. -/
theorem C4_counterexample :
    (decoupledAnalysisPassRun []
      [{ iid := 1, kind := .loadK, operands := [.argRef 10],
         ptrOfPtr := false },
       { iid := 2, kind := .otherK, operands := [.instRef 1, .constV 3],
         ptrOfPtr := false }]).err = none ∧
    (([{ iid := 1, kind := .loadK, operands := [.argRef 10],
         ptrOfPtr := false },
       { iid := 2, kind := .otherK, operands := [.instRef 1, .constV 3],
         ptrOfPtr := false }] : List DInst).all
      fun i => !(i.kind == DKind.storeK)) = true := by
  constructor
  · rfl
  · decide

/-- C4 (amended): the "unreachable store" error is reported exactly when the
loop holds more stores than the flood reaches, so a loop body with no store
instruction is never rejected with it: decoupling then returns either an
error-free report (with an empty store list) or the loop-dependent-loads
error from the flood. -/
theorem C4_no_store_never_unreachable (schedSet : List DVal)
    (body : List DInst) (h : ∀ i ∈ body, i.kind ≠ DKind.storeK) :
    (decoupledAnalysisPassRun schedSet body).err ≠
      some "Unreachable store exists" := by
  have hstore : body.filter (fun i => i.kind == DKind.storeK) = [] := by
    rw [List.filter_eq_nil_iff]
    intro i hi
    simp [h i hi]
  unfold decoupledAnalysisPassRun
  rw [hstore]
  simp only [List.map_nil]
  set seeds := (body.filter fun i =>
    i.kind == DKind.loadK && !schedSet.contains i.opd0 && !i.ptrOfPtr).map
      DInst.iid with hseeds
  cases hf : floodBFS body [] (seeds.length + body.length + 1) seeds [] with
  | error e =>
    have he := floodBFS_error hf
    subst he
    simp [hf]
  | ok tr =>
    simp [hf]

/-- C4 witness: the amended statement at a concrete one-load loop body. -/
theorem C4_witness :
    (decoupledAnalysisPassRun []
      [{ iid := 5, kind := .loadK, operands := [.argRef 9],
         ptrOfPtr := false }]).err ≠ some "Unreachable store exists" :=
  C4_no_store_never_unreachable []
    [{ iid := 5, kind := .loadK, operands := [.argRef 9],
       ptrOfPtr := false }] (by decide)

/-- C3 counterexample: an Affine address generator configured with
`max_nests = 1` and an address expression that is a two-deep nest of
constant-step AddRecs over an unknown base.  Its AddRec nesting depth 2
exceeds the configured bound, yet `verifySCEVAsAffineAG` marks the access
valid: the walk never consults `max_nests`. -/
theorem C3_counterexample :
    createAffineAG (some 1) = .ok { maxNests := 1 } ∧
    specAddRecDepth (mkNest 7 4 10 2) = 2 ∧
    (verifySCEVAsAffineAG (mkNest 7 4 10 2)).valid = true := by
  refine ⟨rfl, rfl, ?_⟩
  simp [verifySCEVAsAffineAG, mkNest, agWalk, parseStartSCEV, parseStartOps]

/-- The walk accepts a constant-step AddRec nest of any depth: it preserves
the validity flag of the configuration it starts from. -/
theorem agWalk_mkNest (b : Nat) (st : Int) (tr n : Nat) (C : AGConfig) :
    (agWalk false [mkNest b st tr n] C).valid = C.valid := by
  induction n generalizing C with
  | zero => simp [mkNest, agWalk]
  | succ m ih =>
    simp only [mkNest, agWalk]
    rw [if_neg (by decide : ¬ (false = true))]
    rw [ih]
    split <;> rfl

/-- C3 (amended): for a Decoupled model whose Affine address generator is
configured with any finite `max_nests = k`, the bound is parsed and stored in
the `AffineAG` object but never consulted by address-generator verification:
`verifySCEVAsAffineAG` accepts a sum of an iteration-invariant base plus
constant-step induction-variable terms nested through ANY number of levels,
and an expression whose AddRec nesting depth exceeds `k` is still marked
valid (invalidity arises only from non-constant steps, AddRecs met after the
walk has left the AddRec prefix, or unsupported SCEV kinds). -/
theorem C3_max_nests_not_enforced (k : Int) (hk : 0 < k) (b : Nat) (st : Int)
    (tr n : Nat) :
    createAffineAG (some k) = .ok { maxNests := k } ∧
    (verifySCEVAsAffineAG (mkNest b st tr n)).valid = true := by
  constructor
  · simp only [createAffineAG]
    rw [if_pos hk]
  · simpa [verifySCEVAsAffineAG] using agWalk_mkNest b st tr n
      { valid := true, config := [], base := none }

/-- C3 witness: the amended statement at a five-deep nest against the bound
1. -/
theorem C3_witness :
    createAffineAG (some 1) = .ok { maxNests := 1 } ∧
    (verifySCEVAsAffineAG (mkNest 3 8 16 5)).valid = true :=
  C3_max_nests_not_enforced 1 (by decide) 3 8 16 5

/-- `toInt32` is the identity below 2^31. -/
theorem toInt32_small {n : Nat} (h : n < 2 ^ 31) : toInt32 n = n := by
  unfold toInt32
  rw [Nat.mod_eq_of_lt (lt_trans h (by norm_num))]
  rw [if_pos h]

/-- The distance recorded for a positive byte distance that is a multiple of
a positive word size and small enough not to overflow is at least one. -/
theorem recordedDistance_ge_one {d : Int} {w : Nat} (h0 : 0 < d) (hw : 0 < w)
    (hdvd : (w : Int) ∣ d) (hlt : d < 2 ^ 31) :
    1 ≤ toInt32 (rawLimb d / w) := by
  have hd64 : d % 2 ^ 64 = d := Int.emod_eq_of_lt (le_of_lt h0) (by omega)
  have hraw : rawLimb d = d.toNat := by rw [rawLimb, hd64]
  have hwd : (w : Int) ≤ d := Int.le_of_dvd h0 hdvd
  have hwdn : w ≤ d.toNat := by omega
  have hq1 : 1 ≤ d.toNat / w := (Nat.one_le_div_iff hw).mpr hwdn
  have hqlt : d.toNat / w < 2 ^ 31 :=
    lt_of_le_of_lt (Nat.div_le_self _ _) (by omega)
  rw [hraw, toInt32_small hqlt]
  exact_mod_cast hq1

/-- C7: with the host dependence checker's guarantee that a backward
store-to-load dependence has a positive constant byte distance that is a
multiple of the (positive, shared) access width and small enough not to
overflow the narrowing conversions, every `MemoryLoopDependency` recorded by
the analysis has distance at least 1 and at most the configured threshold,
and comes from a backward dependence whose pointer distance
`getDistance(def, use)` simplified to that constant. -/
theorem C7_memory_dep_distance (threshold : Int) (deps : List Dependence)
    (hw : ∀ dep ∈ deps, dep.isBackward = true →
      ∀ pu wu pd wd, dep.source = .loadA pu wu →
        dep.destination = .storeA pd wd → pd.base = pu.base →
        0 < pd.offset - pu.offset ∧ 0 < wd ∧
          (wd : Int) ∣ (pd.offset - pu.offset) ∧
          pd.offset - pu.offset < 2 ^ 31) :
    ∀ md ∈ loopDepMemDeps threshold deps,
      (1 ≤ md.distance ∧ md.distance ≤ threshold) ∧
      ∃ dep ∈ deps, dep.isBackward = true ∧
        getDistance dep.destination dep.source = some md.distance := by
  intro md hmd
  rw [loopDepMemDeps, List.mem_flatMap] at hmd
  obtain ⟨dep, hdep, hrec⟩ := hmd
  obtain ⟨isB, src, dst⟩ := dep
  cases isB with
  | false => simp [recordDep] at hrec
  | true =>
    cases src with
    | loadA pu wu =>
      cases dst with
      | storeA pd wd =>
        by_cases hbase : pd.base = pu.base
        · obtain ⟨hpos, hwpos, hdvd, hsmall⟩ :=
            hw _ hdep rfl pu wu pd wd rfl rfl hbase
          by_cases hth :
              toInt32 (rawLimb (pd.offset - pu.offset) / wd) ≤ threshold
          · have hrec2 :
                md = ⟨toInt32 (rawLimb (pd.offset - pu.offset) / wd)⟩ := by
              simpa [recordDep, getDistance, AccessInst.accessPtr,
                AccessInst.accessWidth, getMinusSCEV, hbase, hth] using hrec
            subst hrec2
            refine ⟨⟨recordedDistance_ge_one hpos hwpos hdvd hsmall, hth⟩,
              _, hdep, rfl, ?_⟩
            simp [getDistance, AccessInst.accessPtr, AccessInst.accessWidth,
              getMinusSCEV, hbase]
          · simp [recordDep, getDistance, AccessInst.accessPtr,
              AccessInst.accessWidth, getMinusSCEV, hbase, hth] at hrec
        · simp [recordDep, getDistance, AccessInst.accessPtr,
            getMinusSCEV, hbase] at hrec
      | loadA p w => simp [recordDep] at hrec
      | otherA => simp [recordDep] at hrec
    | storeA p w => simp [recordDep] at hrec
    | otherA => simp [recordDep] at hrec

/-- C7 witness: a concrete backward dependence of byte distance 8 and width
4 against threshold 4 is recorded with distance 2. -/
theorem C7_witness :
    (1 ≤ ({ distance := 2 } : MemLoopDep).distance ∧
      ({ distance := 2 } : MemLoopDep).distance ≤ 4) ∧
    ∃ dep ∈ [({ isBackward := true
                source := .loadA { base := 0, offset := 0 } 4
                destination := .storeA { base := 0, offset := 8 } 4 } :
              Dependence)],
      dep.isBackward = true ∧
      getDistance dep.destination dep.source = some 2 := by
  have h := C7_memory_dep_distance 4
    [{ isBackward := true
       source := .loadA { base := 0, offset := 0 } 4
       destination := .storeA { base := 0, offset := 8 } 4 }]
    (by
      intro dep hdep hb pu wu pd wd hsrc hdst hbase
      rw [List.mem_singleton] at hdep
      subst hdep
      cases hsrc
      cases hdst
      refine ⟨by decide, by decide, by decide, by decide⟩)
    { distance := 2 } (by decide)
  exact h

/-- C8: with `inter_loop_dep = No`, a kernel loop carrying `n ≥ 1` inter-loop
dependencies (register-carried plus memory-carried) fails verification: its
`LoopVerifyResult` is a violation, it is not registered as a valid kernel, no
graph is created for it, and the emitted optimisation remark is the
missed-kernel remark listing the sub-checks, the inter-loop sub-check
appearing under the text "including n inter loop dependencies" with verdict
VIOLATE. -/
theorem C8_interloopdep_no_rejects (ks : List KernelInput) (k : KernelInput)
    (hk : k ∈ ks) (hdep : 1 ≤ k.numDep + k.numMemDep)
    (huniq : ∀ k2 ∈ ks, k2.loopName = k.loopName → k2 = k) :
    kernelPasses .noDep k = false ∧
    k.loopName ∉ registeredKernels .noDep ks ∧
    k.loopName ∉ graphsEmittedFor .noDep ks ∧
    ∃ items, remarkEmitter k.loopName (kernelVerifyResults .noDep k) =
        .missed k.loopName items ∧
      ("including " ++ toString (k.numDep + k.numMemDep) ++
        " inter loop dependencies", "VIOLATE") ∈ items := by
  have hpos : 0 < k.numDep + k.numMemDep := hdep
  have hior : interLoopSubResult .noDep k =
      some { title := "Inter loop dependency"
             message := "including " ++ toString (k.numDep + k.numMemDep) ++
               " inter loop dependencies"
             violated := true } := by
    simp [interLoopSubResult, hpos]
  have hresults : kernelVerifyResults .noDep k =
      [{ title := "Memory access decoupling"
         message := k.decoupleMsg
         violated := k.decoupleViolated },
       { title := "Inter loop dependency"
         message := "including " ++ toString (k.numDep + k.numMemDep) ++
           " inter loop dependencies"
         violated := true },
       { title := "Instruction availability"
         message := k.instAvailMsg
         violated := k.instAvailViolated },
       { title := "Memory access"
         message := ""
         violated := k.agViolated }] := by
    rw [kernelVerifyResults, hior]
    rfl
  have hfail : kernelPasses .noDep k = false := by
    rw [kernelPasses, hresults]
    simp
  have hnotreg : k.loopName ∉ registeredKernels .noDep ks := by
    intro hmem
    rw [registeredKernels, List.mem_map] at hmem
    obtain ⟨k2, hk2, hname⟩ := hmem
    rw [List.mem_filter] at hk2
    obtain ⟨hk2mem, hk2pass⟩ := hk2
    have hkk : k2 = k := huniq k2 hk2mem hname
    rw [hkk, hfail] at hk2pass
    exact Bool.false_ne_true hk2pass
  refine ⟨hfail, hnotreg, ?_, ?_⟩
  · rw [graphsEmittedFor]
    exact hnotreg
  · refine ⟨(kernelVerifyResults .noDep k).map fun r =>
      (r.getName, if r.violated then "VIOLATE" else "PASS"), ?_, ?_⟩
    · rw [remarkEmitter, if_neg]
      intro hall
      rw [kernelPasses] at hfail
      rw [hfail] at hall
      exact Bool.false_ne_true hall
    · rw [hresults]
      simp [SubResult.getName]

/-- C8 witness: a concrete kernel with one register-carried inter-loop
dependency under a model with `inter_loop_dep = No`. -/
theorem C8_witness :
    kernelPasses .noDep
      { loopName := "for.body"
        decoupleMsg := "decoupled"
        decoupleViolated := false
        numDep := 1
        numMemDep := 0
        instAvailViolated := false
        instAvailMsg := ""
        agViolated := false } = false ∧
    "for.body" ∉ registeredKernels .noDep
      [{ loopName := "for.body"
         decoupleMsg := "decoupled"
         decoupleViolated := false
         numDep := 1
         numMemDep := 0
         instAvailViolated := false
         instAvailMsg := ""
         agViolated := false }] ∧
    "for.body" ∉ graphsEmittedFor .noDep
      [{ loopName := "for.body"
         decoupleMsg := "decoupled"
         decoupleViolated := false
         numDep := 1
         numMemDep := 0
         instAvailViolated := false
         instAvailMsg := ""
         agViolated := false }] ∧
    ∃ items, remarkEmitter "for.body"
        (kernelVerifyResults .noDep
          { loopName := "for.body"
            decoupleMsg := "decoupled"
            decoupleViolated := false
            numDep := 1
            numMemDep := 0
            instAvailViolated := false
            instAvailMsg := ""
            agViolated := false }) = .missed "for.body" items ∧
      ("including " ++ toString (1 : Nat) ++ " inter loop dependencies",
        "VIOLATE") ∈ items := by
  have h := C8_interloopdep_no_rejects
    [{ loopName := "for.body"
       decoupleMsg := "decoupled"
       decoupleViolated := false
       numDep := 1
       numMemDep := 0
       instAvailViolated := false
       instAvailMsg := ""
       agViolated := false }]
    { loopName := "for.body"
      decoupleMsg := "decoupled"
      decoupleViolated := false
      numDep := 1
      numMemDep := 0
      instAvailViolated := false
      instAvailMsg := ""
      agViolated := false }
    (by decide) (by decide)
    (by
      intro k2 hk2 hname
      rw [List.mem_singleton] at hk2
      exact hk2)
  exact h

end CGRAOmp
